import Mathlib

/-!
Verification of the Hyperliquid info client (`hyperliquid_info_client.py`) and
the funding-rate exporter (`main.py`): a shallow embedding of the JSON data
model, the retrying request helper `_make_request`, the record-parsing loops of
`get_open_orders` / `get_user_fills`, the chunked time-range iteration of
`fetch_funding_rates_in_chunks`, the stable sort of
`fetch_and_save_historical_funding_rates`, and the CSV serialization of
`save_to_csv`, together with theorems about them.
-/

/-- JSON values as delivered by the API and consumed by the client.
Numbers are modelled as rationals. -/
inductive JVal where
  | jnum (q : Rat)
  | jstr (s : String)
  | jbool (b : Bool)
  | jnull
  | jarr (xs : List JVal)
  | jobj (fields : List (String × JVal))

/-- A funding-rate entry: a Python dict, modelled as an association list. -/
abbrev Entry := List (String × JVal)

/-- The Python exception kinds the embedded code can raise. -/
inductive PyErr where
  | valueError
  | typeError
  | attributeError
  | keyError
  | transportError
deriving DecidableEq

/-- Value of a digit string read in base 10. -/
def digitsVal (ds : List Char) : Nat :=
  ds.foldl (fun a c => a * 10 + (c.toNat - 48)) 0

/-- Models Python `float()` applied to a string, on the plain decimal forms
(optional sign, digits, optional single dot with at least one digit overall).
Exponent, `inf`/`nan`, underscore and whitespace forms are not modelled. -/
def parseDecimal? (s : String) : Option Rat :=
  let cs := s.toList
  let signed : Bool × List Char :=
    match cs with
    | '-' :: rest => (true, rest)
    | '+' :: rest => (false, rest)
    | _ => (false, cs)
  let mk : Nat → Nat → Nat → Rat := fun ip fp fl =>
    let v : Rat := (ip : Rat) + (fp : Rat) / ((10 : Rat) ^ fl)
    if signed.1 then -v else v
  match signed.2.splitOn '.' with
  | [ip] =>
      if ip ≠ [] ∧ ip.all Char.isDigit then some (mk (digitsVal ip) 0 0) else none
  | [ip, fp] =>
      if (ip ≠ [] ∨ fp ≠ []) ∧ ip.all Char.isDigit ∧ fp.all Char.isDigit then
        some (mk (digitsVal ip) (digitsVal fp) fp.length)
      else none
  | _ => none

/-- Models Python `float()` on a JSON-derived value: numbers and bools coerce,
numeric strings parse (`ValueError` otherwise), and `None`, lists and dicts
raise `TypeError`. -/
def pyFloat : JVal → Except PyErr Rat
  | .jnum q => .ok q
  | .jbool b => .ok (if b then 1 else 0)
  | .jstr s =>
      match parseDecimal? s with
      | some q => .ok q
      | none => .error .valueError
  | .jnull => .error .typeError
  | .jarr _ => .error .typeError
  | .jobj _ => .error .typeError

/-- Python `d.get(key, default)` on a dict. -/
def pyGet (fields : List (String × JVal)) (key : String) (dflt : JVal) : JVal :=
  (fields.lookup key).getD dflt

/-- Python `for x in v`: lists yield their items, strings their characters,
dicts their keys; other values raise `TypeError`. -/
def pyIter : JVal → Except PyErr (List JVal)
  | .jarr xs => .ok xs
  | .jstr s => .ok (s.toList.map (fun c => .jstr (String.singleton c)))
  | .jobj fields => .ok (fields.map (fun kv => .jstr kv.1))
  | _ => .error .typeError

/-- Python `s.startswith('0x')`: the first two characters are `0x`. -/
def startsWith0x (s : String) : Bool :=
  s.toList.take 2 == ['0', 'x']

/-- The address check shared by every address-scoped client method:
`not user or len(user) != 42 or not user.startswith('0x')`. -/
def invalid_user (user : String) : Bool :=
  user.isEmpty || user.length != 42 || !(startsWith0x user)

/-- Whether a character is a hexadecimal digit. -/
def isHexChar (c : Char) : Bool :=
  c.isDigit || ('a' ≤ c && c ≤ 'f') || ('A' ≤ c && c ≤ 'F')

/-- The address pattern named by the spec: `0x` followed by 40 hex characters. -/
def matchesAddressPattern (s : String) : Bool :=
  startsWith0x s && s.length == 42 && (s.toList.drop 2).all isHexChar

/-- What one HTTP attempt inside `_make_request` can produce: a
`requests.RequestException` (connection error, timeout, or non-2xx from
`raise_for_status`), a 2xx body that is not valid JSON
(`json.JSONDecodeError`, a `ValueError` subclass), or a 2xx JSON body. -/
inductive AttemptResult where
  | transportError
  | badJson
  | ok (body : JVal)

/-- How a run of `_make_request` ends: `return result`, the re-raised
`RequestException` of the last attempt, the `ValueError` raised for an invalid
response, or falling off the loop returning `None` (only when
`max_retries = 0`). -/
inductive Outcome where
  | returned (body : JVal)
  | raisedTransport
  | raisedValue
  | fellThrough

/-- The `isinstance(result, (dict, list))` check of `_make_request`. -/
def isDictOrList : JVal → Bool
  | .jarr _ => true
  | .jobj _ => true
  | _ => false

/-- The retry loop of `_make_request`, one recursive step per loop iteration.
`t a` is the transport's behaviour on the attempt with zero-based index `a`;
`fuel` counts the iterations `range(max_retries)` still has to run, so the
loop body executes exactly while `a < M`. Returns the outcome, the number of
attempts made, and the list of backoff sleeps (`2 ** attempt`) in order; the
rate-limit sleep on the success path is not tracked. -/
def makeRequestAux (t : Nat → AttemptResult) (M : Nat) :
    Nat → Nat → Outcome × Nat × List Nat
  | 0, a => (.fellThrough, a, [])
  | fuel + 1, a =>
    match t a with
    | .ok body =>
        if isDictOrList body then (.returned body, a + 1, [])
        else (.raisedValue, a + 1, [])
    | .badJson => (.raisedValue, a + 1, [])
    | .transportError =>
        if a = M - 1 then (.raisedTransport, a + 1, [])
        else
          let rest := makeRequestAux t M fuel (a + 1)
          (rest.1, rest.2.1, 2 ^ a :: rest.2.2)

/-- `_make_request` with `max_retries = M` against transport behaviour `t`. -/
def make_request (t : Nat → AttemptResult) (M : Nat) : Outcome × Nat × List Nat :=
  makeRequestAux t M M 0

/-- Order record: `OrderInfo`. Fields passed to `float()` are rationals; the
other fields keep whatever value `order_data.get` returned, since the
dataclass performs no coercion on them. -/
structure OrderInfo where
  oid : JVal
  cloid : JVal
  coin : JVal
  side : JVal
  sz : Rat
  limit_px : Rat
  reduce_only : JVal
  timestamp : JVal

/-- Fill record: `FillInfo`, with the same convention as `OrderInfo`. -/
structure FillInfo where
  oid : JVal
  cloid : JVal
  coin : JVal
  side : JVal
  sz : Rat
  px : Rat
  fee : Rat
  timestamp : JVal

/-- Body of the `try` block in the `get_open_orders` parsing loop: build one
`OrderInfo` from one entry. A non-dict entry raises `AttributeError` at
`.get`; the `float()` coercions of `sz` and `limitPx` can raise
`ValueError`/`TypeError`, in that argument order. -/
def parseOrder (order_data : JVal) : Except PyErr OrderInfo :=
  match order_data with
  | .jobj f => do
      let sz ← pyFloat (pyGet f "sz" (.jnum 0))
      let lpx ← pyFloat (pyGet f "limitPx" (.jnum 0))
      pure { oid := pyGet f "oid" (.jnum 0)
             cloid := pyGet f "cloid" (.jstr "")
             coin := pyGet f "coin" (.jstr "")
             side := pyGet f "side" (.jstr "")
             sz := sz
             limit_px := lpx
             reduce_only := pyGet f "reduceOnly" (.jbool false)
             timestamp := pyGet f "timestamp" (.jnum 0) }
  | _ => .error .attributeError

/-- The `get_open_orders` loop: `except (KeyError, ValueError)` logs and
continues with the next entry; any other exception propagates. -/
def parseOrders : List JVal → Except PyErr (List OrderInfo)
  | [] => .ok []
  | d :: rest =>
    match parseOrder d with
    | .ok o =>
        match parseOrders rest with
        | .ok os => .ok (o :: os)
        | .error e => .error e
    | .error .valueError => parseOrders rest
    | .error .keyError => parseOrders rest
    | .error e => .error e

/-- Response handling of `get_open_orders`: a list response is iterated
directly, otherwise `response.get("data", [])` is iterated. -/
def parseOpenOrdersResponse (response : JVal) : Except PyErr (List OrderInfo) :=
  match response with
  | .jarr items => parseOrders items
  | .jobj f =>
      match pyIter (pyGet f "data" (.jarr [])) with
      | .ok items => parseOrders items
      | .error e => .error e
  | _ => .error .attributeError

/-- Body of the `try` block in the `get_user_fills` parsing loop. -/
def parseFill (fill_data : JVal) : Except PyErr FillInfo :=
  match fill_data with
  | .jobj f => do
      let sz ← pyFloat (pyGet f "sz" (.jnum 0))
      let px ← pyFloat (pyGet f "px" (.jnum 0))
      let fee ← pyFloat (pyGet f "fee" (.jnum 0))
      pure { oid := pyGet f "oid" (.jnum 0)
             cloid := pyGet f "cloid" (.jstr "")
             coin := pyGet f "coin" (.jstr "")
             side := pyGet f "side" (.jstr "")
             sz := sz
             px := px
             fee := fee
             timestamp := pyGet f "timestamp" (.jnum 0) }
  | _ => .error .attributeError

/-- The `get_user_fills` loop, with the same exception handling as
`parseOrders`. -/
def parseFills : List JVal → Except PyErr (List FillInfo)
  | [] => .ok []
  | d :: rest =>
    match parseFill d with
    | .ok o =>
        match parseFills rest with
        | .ok os => .ok (o :: os)
        | .error e => .error e
    | .error .valueError => parseFills rest
    | .error .keyError => parseFills rest
    | .error e => .error e

/-- Response handling shared verbatim by `get_user_fills` and
`get_user_fills_by_time`: `response.get("data", [])` unconditionally, so a
non-dict response raises `AttributeError`. -/
def parseUserFillsResponse (response : JVal) : Except PyErr (List FillInfo) :=
  match response with
  | .jobj f =>
      match pyIter (pyGet f "data" (.jarr [])) with
      | .ok items => parseFills items
      | .error e => .error e
  | _ => .error .attributeError

/-- Full `get_open_orders` pipeline against transport behaviour `t` with
`max_retries = M`: address validation first, then `_make_request`, then the
parsing loop. The second component is the number of network attempts made
(0 when validation raises before any request). -/
def get_open_orders (user : String) (t : Nat → AttemptResult) (M : Nat) :
    Except PyErr (List OrderInfo) × Nat :=
  if invalid_user user then (.error .valueError, 0)
  else
    let r := make_request t M
    match r.1 with
    | .returned v => (parseOpenOrdersResponse v, r.2.1)
    | .raisedTransport => (.error .transportError, r.2.1)
    | .raisedValue => (.error .valueError, r.2.1)
    | .fellThrough => (.error .attributeError, r.2.1)

/-- Full `get_user_fills` pipeline, same shape as `get_open_orders`. -/
def get_user_fills (user : String) (t : Nat → AttemptResult) (M : Nat) :
    Except PyErr (List FillInfo) × Nat :=
  if invalid_user user then (.error .valueError, 0)
  else
    let r := make_request t M
    match r.1 with
    | .returned v => (parseUserFillsResponse v, r.2.1)
    | .raisedTransport => (.error .transportError, r.2.1)
    | .raisedValue => (.error .valueError, r.2.1)
    | .fellThrough => (.error .attributeError, r.2.1)

/-- `chunk_ms = chunk_days * 24 * 60 * 60 * 1000` in
`fetch_funding_rates_in_chunks`. -/
def chunkMsOfDays (chunk_days : Nat) : Nat :=
  chunk_days * 24 * 60 * 60 * 1000

/-- The window sequence iterated by the `while current_start < end_time` loop
of `fetch_funding_rates_in_chunks`: each iteration requests
`[current_start, min (current_start + chunk_ms) end_time]` and then advances
`current_start` to the window's end. Times are epoch milliseconds. The
`0 < chunkMs` guard makes the recursion terminating; with `chunk_ms = 0` the
Python loop never terminates, which is outside every caller's domain. -/
def chunkWindows (currentStart endTime chunkMs : Nat) : List (Nat × Nat) :=
  if h : currentStart < endTime ∧ 0 < chunkMs then
    (currentStart, min (currentStart + chunkMs) endTime) ::
      chunkWindows (min (currentStart + chunkMs) endTime) endTime chunkMs
  else []
termination_by endTime - currentStart
decreasing_by
  obtain ⟨h1, h2⟩ := h
  omega

/-- Sort key of `funding_rates.sort(key=lambda x: x.get('time', 0))`: the
`time` field, defaulting to 0 when missing. A non-numeric `time` value is
mapped to 0 here; `timeOk` scopes theorems to entries where that cannot
diverge from Python (which would compare the raw value). -/
def timeKey (e : Entry) : Rat :=
  match e.lookup "time" with
  | some (.jnum q) => q
  | some _ => 0
  | none => 0

/-- Whether an entry's time key equals `q`, as a Boolean predicate for
stating sort stability via filters. -/
def timeEq (q : Rat) (e : Entry) : Bool := timeKey e == q

/-- Whether an entry's `time` field is numeric or absent, the domain on which
`timeKey` is a faithful model of the Python sort key. -/
def timeOk (e : Entry) : Bool :=
  match e.lookup "time" with
  | some (.jnum _) => true
  | some _ => false
  | none => true

/-- Comparison used to model the sort: ascending by `timeKey`. -/
def entryLE (a b : Entry) : Prop := timeKey a ≤ timeKey b

instance : DecidableRel entryLE := fun a b =>
  inferInstanceAs (Decidable (timeKey a ≤ timeKey b))

instance : IsTotal Entry entryLE := ⟨fun a b => le_total (timeKey a) (timeKey b)⟩

instance : IsTrans Entry entryLE := ⟨fun _ _ _ => le_trans⟩

/-- The exporter's `funding_rates.sort(key=lambda x: x.get('time', 0))`,
modelled as a stable insertion sort by the same key: an element is inserted
before the first already-placed element of greater-or-equal key, so
equal-key elements keep their arrival order exactly as Python's stable
`list.sort` does. -/
def sortEntries (l : List Entry) : List Entry :=
  l.insertionSort entryLE

/-- One `writer.writerow(entry)` of `csv.DictWriter`: a key outside
`fieldnames` raises `ValueError` (the default `extrasaction='raise'`); a
missing key yields the `restval` default `None`, modelled as `none`. Cells
are the raw values handed to the writer. -/
def toCsvRow (fieldnames : List String) (entry : Entry) :
    Except PyErr (List (Option JVal)) :=
  if entry.all (fun kv => fieldnames.contains kv.1) then
    .ok (fieldnames.map (fun k => entry.lookup k))
  else .error .valueError

/-- The row-writing loop of `save_to_csv`. -/
def writeRows (fieldnames : List String) :
    List Entry → Except PyErr (List (List (Option JVal)))
  | [] => .ok []
  | e :: es =>
    match toCsvRow fieldnames e with
    | .ok r =>
        match writeRows fieldnames es with
        | .ok rs => .ok (r :: rs)
        | .error err => .error err
    | .error err => .error err

/-- `save_to_csv`: the produced file as header row plus data rows. An empty
input writes the fixed fallback header and no rows; otherwise the header is
the key list of the first entry and every entry is written through
`csv.DictWriter`. -/
def save_to_csv (funding_rates : List Entry) :
    Except PyErr (List String × List (List (Option JVal))) :=
  match funding_rates with
  | [] => .ok (["coin", "fundingRate", "premium", "time"], [])
  | first :: _ =>
    let fieldnames := first.map Prod.fst
    match writeRows fieldnames funding_rates with
    | .ok rows => .ok (fieldnames, rows)
    | .error err => .error err

/-- How one non-`RequestException` attempt result ends the `_make_request`
loop. -/
def attemptOutcome : AttemptResult → Outcome
  | .ok body => if isDictOrList body then .returned body else .raisedValue
  | .badJson => .raisedValue
  | .transportError => .raisedTransport

/-- Transport behaviour with `N` consecutive failures followed by successes
returning `body`. -/
def transportFailThen (N : Nat) (body : JVal) : Nat → AttemptResult :=
  fun i => if i < N then .transportError else .ok body

theorem makeRequestAux_reach (t : Nat → AttemptResult) (M N : Nat)
    (hfail : ∀ i, i < N → t i = AttemptResult.transportError)
    (hstop : t N ≠ AttemptResult.transportError) :
    ∀ fuel a, a + fuel = M → a ≤ N → N < M →
      makeRequestAux t M fuel a =
        (attemptOutcome (t N), N + 1, (List.range' a (N - a)).map (fun j => 2 ^ j)) := by
  intro fuel
  induction fuel with
  | zero => intro a hM haN hNM; omega
  | succ fuel ih =>
    intro a hM haN hNM
    rcases eq_or_lt_of_le haN with rfl | haN'
    · rw [makeRequestAux]
      cases ht : t a with
      | transportError => exact absurd ht hstop
      | badJson => simp [attemptOutcome, ht]
      | ok body =>
        simp only [attemptOutcome, ht, Nat.sub_self, List.range'_zero, List.map_nil]
        split <;> rfl
    · have ha : t a = AttemptResult.transportError := hfail a haN'
      rw [makeRequestAux, ha]
      have hne : a ≠ M - 1 := by omega
      rw [if_neg hne]
      have hrec := ih (a + 1) (by omega) (by omega) hNM
      rw [hrec]
      have hNa : N - a = (N - (a + 1)) + 1 := by omega
      rw [hNa, List.range'_succ, List.map_cons]

theorem makeRequestAux_exhaust (t : Nat → AttemptResult) (M : Nat)
    (hfail : ∀ i, i < M → t i = AttemptResult.transportError) :
    ∀ fuel a, a + fuel = M → a < M →
      makeRequestAux t M fuel a =
        (Outcome.raisedTransport, M, (List.range' a (M - 1 - a)).map (fun j => 2 ^ j)) := by
  intro fuel
  induction fuel with
  | zero => intro a hM haM; omega
  | succ fuel ih =>
    intro a hM haM
    rw [makeRequestAux, hfail a haM]
    by_cases hlast : a = M - 1
    · rw [if_pos hlast]
      have h1 : a + 1 = M := by omega
      have h0 : M - 1 - a = 0 := by omega
      rw [h1, h0, List.range'_zero, List.map_nil]
    · rw [if_neg hlast]
      rw [ih (a + 1) (by omega) (by omega)]
      have hMa : M - 1 - a = (M - 1 - (a + 1)) + 1 := by omega
      rw [hMa, List.range'_succ, List.map_cons]

/-- C2: with `N` consecutive transport failures followed by success and
maximum attempt count `M`, `_make_request` returns the parsed response iff
`N < M`, makes exactly `min (N+1) M` attempts, and when `N ≥ M` re-raises the
transport failure of the final attempt. -/
theorem make_request_retry_count (M N : Nat) (body : JVal)
    (hM : 0 < M) (hbody : isDictOrList body = true) :
    ((make_request (transportFailThen N body) M).1 = Outcome.returned body ↔ N < M) ∧
    (make_request (transportFailThen N body) M).2.1 = min (N + 1) M ∧
    (M ≤ N → (make_request (transportFailThen N body) M).1 = Outcome.raisedTransport) := by
  by_cases h : N < M
  · have hr := makeRequestAux_reach (transportFailThen N body) M N
      (fun i hi => by simp [transportFailThen, hi])
      (by simp [transportFailThen])
      M 0 (by omega) (by omega) h
    unfold make_request
    rw [hr]
    have hout : attemptOutcome (transportFailThen N body N) = Outcome.returned body := by
      simp [transportFailThen, attemptOutcome, hbody]
    rw [hout]
    refine ⟨by simp [h], ?_, fun h' => by omega⟩
    show N + 1 = min (N + 1) M
    omega
  · have hr := makeRequestAux_exhaust (transportFailThen N body) M
      (fun i hi => by simp only [transportFailThen, if_pos (show i < N by omega)])
      M 0 (by omega) hM
    unfold make_request
    rw [hr]
    refine ⟨by simp [h], ?_, fun _ => rfl⟩
    show M = min (N + 1) M
    omega

/-- Witness for `make_request_retry_count` at `M = 3`, `N = 1`. -/
theorem make_request_retry_count_witness :
    (0 < 3 ∧ isDictOrList (JVal.jobj []) = true) ∧
    (((make_request (transportFailThen 1 (JVal.jobj [])) 3).1 =
        Outcome.returned (JVal.jobj []) ↔ 1 < 3) ∧
      (make_request (transportFailThen 1 (JVal.jobj [])) 3).2.1 = min (1 + 1) 3 ∧
      (3 ≤ 1 → (make_request (transportFailThen 1 (JVal.jobj [])) 3).1 =
        Outcome.raisedTransport)) :=
  ⟨⟨by decide, rfl⟩, make_request_retry_count 3 1 (JVal.jobj []) (by decide) rfl⟩

/-- C3: after `N < M` transport failures, a response whose body is not valid
JSON, or whose JSON top level is neither a dict nor a list, makes
`_make_request` raise the `ValueError` "invalid response" kind immediately —
`N + 1` attempts, no retry — and that outcome is distinct from the re-raised
transport failure. -/
theorem make_request_invalid_response_no_retry (M N : Nat)
    (t : Nat → AttemptResult) (hNM : N < M)
    (hfail : ∀ i, i < N → t i = AttemptResult.transportError)
    (hbad : t N = AttemptResult.badJson ∨
      ∃ v, t N = AttemptResult.ok v ∧ isDictOrList v = false) :
    (make_request t M).1 = Outcome.raisedValue ∧
    (make_request t M).2.1 = N + 1 ∧
    (make_request t M).1 ≠ Outcome.raisedTransport := by
  have hstop : t N ≠ AttemptResult.transportError := by
    rcases hbad with h | ⟨v, hv, _⟩
    · simp [h]
    · simp [hv]
  have hr := makeRequestAux_reach t M N hfail hstop M 0 (by omega) (by omega) hNM
  unfold make_request
  rw [hr]
  have hout : attemptOutcome (t N) = Outcome.raisedValue := by
    rcases hbad with h | ⟨v, hv, hvd⟩
    · rw [h]; rfl
    · rw [hv]; simp [attemptOutcome, hvd]
  rw [hout]
  exact ⟨rfl, rfl, by simp⟩

/-- Witness for `make_request_invalid_response_no_retry`: a non-JSON body on
the very first attempt with `M = 3`. -/
theorem make_request_invalid_response_no_retry_witness :
    0 < 3 ∧
    ((make_request (fun _ => AttemptResult.badJson) 3).1 = Outcome.raisedValue ∧
      (make_request (fun _ => AttemptResult.badJson) 3).2.1 = 0 + 1 ∧
      (make_request (fun _ => AttemptResult.badJson) 3).1 ≠ Outcome.raisedTransport) :=
  ⟨by decide,
    make_request_invalid_response_no_retry 3 0 (fun _ => AttemptResult.badJson)
      (by decide) (fun i hi => absurd hi (Nat.not_lt_zero i)) (Or.inl rfl)⟩

/-- C4: with `max_retries = 3`, the backoff delays of a run with `N` leading
transport failures are exactly `2 ^ k` for zero-based retry index `k`
(`1` before the first retry, `2` before the second), a non-decreasing
sequence. -/
theorem make_request_backoff_exponential (N : Nat) (body : JVal) :
    (make_request (transportFailThen N body) 3).2.2 =
      (List.range (min N 2)).map (fun k => 2 ^ k) ∧
    List.Chain' (fun a b => a ≤ b)
      (make_request (transportFailThen N body) 3).2.2 := by
  have key : (make_request (transportFailThen N body) 3).2.2 =
      (List.range (min N 2)).map (fun k => 2 ^ k) := by
    by_cases h : N < 3
    · have hr := makeRequestAux_reach (transportFailThen N body) 3 N
        (fun i hi => by simp [transportFailThen, hi])
        (by simp [transportFailThen])
        3 0 (by omega) (by omega) h
      unfold make_request
      rw [hr]
      have hmin : min N 2 = N := by omega
      rw [hmin, List.range_eq_range', Nat.sub_zero]
    · have hr := makeRequestAux_exhaust (transportFailThen N body) 3
        (fun i hi => by simp only [transportFailThen, if_pos (show i < N by omega)])
        3 0 (by omega) (by omega)
      unfold make_request
      rw [hr]
      have hmin : min N 2 = 2 := by omega
      rw [hmin, List.range_eq_range']
  refine ⟨key, ?_⟩
  rw [key, List.chain'_map]
  have hp : List.Chain' (fun a b => a < b) (List.range (min N 2)) :=
    (List.pairwise_lt_range _).chain'
  exact hp.imp fun a b hab =>
    Nat.pow_le_pow_right (by norm_num) (Nat.le_of_lt hab)

/-- C1 counterexample: a 42-character `0x`-prefixed string of non-hex
characters does not match the spec's pattern, yet passes validation, so
`get_open_orders` makes a network request and returns normally instead of
raising `ValueError`. -/
theorem address_nonhex_passes_validation :
    matchesAddressPattern "0xzzzzzzzzzzzzzzzzzzzzzzzzzzzzzzzzzzzzzzzz" = false ∧
    invalid_user "0xzzzzzzzzzzzzzzzzzzzzzzzzzzzzzzzzzzzzzzzz" = false ∧
    get_open_orders "0xzzzzzzzzzzzzzzzzzzzzzzzzzzzzzzzzzzzzzzzz"
      (fun _ => AttemptResult.ok (JVal.jarr [])) 3 = (Except.ok [], 1) :=
  ⟨rfl, rfl, rfl⟩

/-- C1 (amended): an address-scoped method raises `ValueError` before any
network request exactly when the address is not 42 characters long or does
not start with `0x`; every address matching the spec's `0x`+40-hex pattern
passes validation, but hexness of the trailing 40 characters is not itself
checked. -/
theorem address_validation_amended (u : String) :
    (invalid_user u = true ↔ (u.length ≠ 42 ∨ startsWith0x u = false)) ∧
    (matchesAddressPattern u = true → invalid_user u = false) ∧
    (∀ t M, invalid_user u = true →
      get_open_orders u t M = (Except.error PyErr.valueError, 0)) ∧
    (∀ t M, invalid_user u = true →
      get_user_fills u t M = (Except.error PyErr.valueError, 0)) := by
  have hiff : invalid_user u = true ↔ (u.length ≠ 42 ∨ startsWith0x u = false) := by
    simp only [invalid_user, Bool.or_eq_true, bne_iff_ne, Bool.not_eq_true']
    constructor
    · rintro ((h | h) | h)
      · left
        have he : u = "" := (String.isEmpty_iff u).mp h
        subst he
        decide
      · exact Or.inl h
      · exact Or.inr h
    · rintro (h | h)
      · exact Or.inl (Or.inr h)
      · exact Or.inr h
  refine ⟨hiff, ?_, ?_, ?_⟩
  · intro hm
    simp only [matchesAddressPattern, Bool.and_eq_true, beq_iff_eq] at hm
    rcases Bool.eq_false_or_eq_true (invalid_user u) with hv | hv
    · exact absurd (hiff.mp hv) (by simp [hm.1.1, hm.1.2])
    · exact hv
  · intro t M h
    simp [get_open_orders, h]
  · intro t M h
    simp [get_user_fills, h]

/-- C7 counterexample: in a batch of 3 order entries where exactly one has the
non-numeric size value `null`, `float(None)` raises `TypeError`, which the
loop's `except (KeyError, ValueError)` does not catch — the whole parse
aborts instead of yielding 2 records. -/
theorem order_parse_null_size_aborts :
    parseOrders
      [JVal.jobj [("oid", JVal.jnum 1), ("sz", JVal.jstr "1.5")],
        JVal.jobj [("oid", JVal.jnum 99), ("sz", JVal.jnull)],
        JVal.jobj [("oid", JVal.jnum 2)]] = Except.error PyErr.typeError ∧
    ∀ os : List OrderInfo,
      parseOrders
        [JVal.jobj [("oid", JVal.jnum 1), ("sz", JVal.jstr "1.5")],
          JVal.jobj [("oid", JVal.jnum 99), ("sz", JVal.jnull)],
          JVal.jobj [("oid", JVal.jnum 2)]] ≠ Except.ok os := by
  refine ⟨rfl, ?_⟩
  intro os h
  rw [show parseOrders
      [JVal.jobj [("oid", JVal.jnum 1), ("sz", JVal.jstr "1.5")],
        JVal.jobj [("oid", JVal.jnum 99), ("sz", JVal.jnull)],
        JVal.jobj [("oid", JVal.jnum 2)]] = Except.error PyErr.typeError from rfl] at h
  exact absurd h (by simp)

/-- C7 (amended): an entry whose field coercion fails with `ValueError`
(e.g., a non-numeric size string) is dropped and the rest of the batch is
parsed — a 3-entry batch with one non-numeric-string size yields 2 records —
but a coercion failure raising `TypeError` (size of `null`, list or dict) is
not caught and aborts the batch. -/
theorem order_parse_drop_amended :
    (∀ (pre post : List JVal) (d : JVal),
      parseOrder d = Except.error PyErr.valueError →
      parseOrders (pre ++ d :: post) = parseOrders (pre ++ post)) ∧
    parseOrders
      [JVal.jobj [("oid", JVal.jnum 1), ("sz", JVal.jnum 5)],
        JVal.jobj [("oid", JVal.jnum 99), ("sz", JVal.jstr "abc")],
        JVal.jobj [("oid", JVal.jnum 2)]] =
      Except.ok
        [⟨JVal.jnum 1, JVal.jstr "", JVal.jstr "", JVal.jstr "", 5, 0,
            JVal.jbool false, JVal.jnum 0⟩,
          ⟨JVal.jnum 2, JVal.jstr "", JVal.jstr "", JVal.jstr "", 0, 0,
            JVal.jbool false, JVal.jnum 0⟩] := by
  constructor
  · intro pre post d hd
    induction pre with
    | nil => simp only [List.nil_append, parseOrders, hd]
    | cons p pre ih =>
      cases hp : parseOrder p with
      | ok o =>
        simp only [List.cons_append, parseOrders, hp, List.append_eq, ih]
      | error e =>
        cases e <;> simp only [List.cons_append, parseOrders, hp, List.append_eq, ih]
  · rfl

/-- Witness for `order_parse_drop_amended`: a singleton batch whose one entry
has a non-numeric size string parses to the same result as the empty batch. -/
theorem order_parse_drop_amended_witness :
    parseOrder (JVal.jobj [("sz", JVal.jstr "abc")]) = Except.error PyErr.valueError ∧
    parseOrders ([] ++ JVal.jobj [("sz", JVal.jstr "abc")] :: []) = parseOrders ([] ++ []) :=
  ⟨rfl, order_parse_drop_amended.1 [] [] (JVal.jobj [("sz", JVal.jstr "abc")]) rfl⟩

/-- C10: `get_user_fills` (and `get_user_fills_by_time`, which shares the
same response handling) assume a dict-shaped response: a dict without a
`data` key yields the empty list, and a top-level array raises
(`AttributeError` at `.get`); `get_open_orders` instead accepts both an
array-shaped response and a dict's `data` field. -/
theorem fills_vs_orders_response_shape :
    (∀ f : List (String × JVal), f.lookup "data" = none →
      parseUserFillsResponse (JVal.jobj f) = Except.ok []) ∧
    (∀ items : List JVal,
      parseUserFillsResponse (JVal.jarr items) = Except.error PyErr.attributeError) ∧
    (∀ items : List JVal,
      parseOpenOrdersResponse (JVal.jarr items) = parseOrders items) ∧
    (∀ (f : List (String × JVal)) (items : List JVal),
      f.lookup "data" = some (JVal.jarr items) →
      parseOpenOrdersResponse (JVal.jobj f) = parseOrders items) := by
  refine ⟨?_, fun _ => rfl, fun _ => rfl, ?_⟩
  · intro f h
    simp [parseUserFillsResponse, pyGet, h, pyIter, parseFills]
  · intro f items h
    simp [parseOpenOrdersResponse, pyGet, h, pyIter]

/-- Witness for `fills_vs_orders_response_shape`: a dict response without a
`data` key and a dict response whose `data` is an empty array. -/
theorem fills_vs_orders_response_shape_witness :
    ([("x", JVal.jnum 1)] : List (String × JVal)).lookup "data" = none ∧
    parseUserFillsResponse (JVal.jobj [("x", JVal.jnum 1)]) = Except.ok [] ∧
    parseOpenOrdersResponse (JVal.jobj [("data", JVal.jarr [])]) = parseOrders [] :=
  ⟨rfl, fills_vs_orders_response_shape.1 [("x", JVal.jnum 1)] rfl,
    fills_vs_orders_response_shape.2.2.2 [("data", JVal.jarr [])] [] rfl⟩

theorem chunkWindows_length :
    ∀ s e c, 0 < c → (chunkWindows s e c).length = (e - s + c - 1) / c := by
  intro s e c
  induction s, e, c using chunkWindows.induct with
  | case1 s e c h ih =>
    intro hc
    obtain ⟨h1, h2⟩ := h
    rw [chunkWindows, dif_pos ⟨h1, h2⟩]
    simp only [List.length_cons, ih hc]
    rcases Nat.le_total (s + c) e with hend | hend
    · rw [Nat.min_eq_left hend]
      have hx : e - s + c - 1 = (e - (s + c) + c - 1) + c := by omega
      rw [hx, Nat.add_div_right _ hc]
    · rw [Nat.min_eq_right hend]
      have h0 : e - e = 0 := by omega
      rw [h0]
      have hz : (0 + c - 1) / c = 0 := Nat.div_eq_of_lt (by omega)
      rw [hz]
      symm
      apply Nat.div_eq_of_lt_le <;> omega
  | case2 s e c h =>
    intro hc
    rw [chunkWindows, dif_neg h]
    have he : e - s = 0 := by
      rcases Nat.lt_or_ge s e with hlt | hge
      · exact absurd ⟨hlt, hc⟩ h
      · omega
    rw [he]
    symm
    apply Nat.div_eq_of_lt
    omega

theorem chunkWindows_mem :
    ∀ s e c, ∀ w ∈ chunkWindows s e c, w.2 = min (w.1 + c) e ∧ w.1 < w.2 := by
  intro s e c
  induction s, e, c using chunkWindows.induct with
  | case1 s e c h ih =>
    obtain ⟨h1, h2⟩ := h
    rw [chunkWindows, dif_pos ⟨h1, h2⟩]
    intro w hw
    rcases List.mem_cons.mp hw with rfl | hw'
    · exact ⟨rfl, by omega⟩
    · exact ih w hw'
  | case2 s e c h =>
    rw [chunkWindows, dif_neg h]
    intro w hw
    exact absurd hw (List.not_mem_nil w)

theorem chunkWindows_head (s e c : Nat) (h1 : s < e) (h2 : 0 < c) :
    (chunkWindows s e c).head? = some (s, min (s + c) e) := by
  rw [chunkWindows, dif_pos ⟨h1, h2⟩]
  rfl

theorem chunkWindows_chain :
    ∀ s e c, List.Chain' (fun a b => a.2 = b.1) (chunkWindows s e c) := by
  intro s e c
  induction s, e, c using chunkWindows.induct with
  | case1 s e c h ih =>
    obtain ⟨h1, h2⟩ := h
    rw [chunkWindows, dif_pos ⟨h1, h2⟩]
    refine List.chain'_cons'.mpr ⟨?_, ih⟩
    intro b hb
    by_cases hm : min (s + c) e < e
    · rw [chunkWindows_head _ _ _ hm h2] at hb
      simp only [Option.mem_def, Option.some.injEq] at hb
      rw [← hb]
    · rw [chunkWindows, dif_neg (by omega)] at hb
      simp at hb
  | case2 s e c h =>
    rw [chunkWindows, dif_neg h]
    exact List.chain'_nil

theorem chunkWindows_last :
    ∀ s e c, s < e → 0 < c →
      ∃ wl, (chunkWindows s e c).getLast? = some wl ∧ wl.2 = e := by
  intro s e c
  induction s, e, c using chunkWindows.induct with
  | case1 s e c h ih =>
    obtain ⟨h1, h2⟩ := h
    intro _ _
    rw [chunkWindows, dif_pos ⟨h1, h2⟩]
    by_cases hm : min (s + c) e < e
    · obtain ⟨wl, hwl, hwe⟩ := ih hm h2
      refine ⟨wl, ?_, hwe⟩
      rcases hrest : chunkWindows (min (s + c) e) e c with _ | ⟨r, rs⟩
      · rw [hrest] at hwl
        simp at hwl
      · rw [hrest] at hwl
        rw [List.getLast?_cons_cons]
        exact hwl
    · have hme : min (s + c) e = e := by omega
      rw [chunkWindows, dif_neg (by omega)]
      exact ⟨(s, min (s + c) e), rfl, hme⟩
  | case2 s e c h =>
    intro h1 h2
    exact absurd ⟨h1, h2⟩ h

/-- C5: for `start < end` and positive `chunk_days`, the windows iterated by
`fetch_funding_rates_in_chunks` exactly tile `[start, end)`: each window is
`(s, min (s + chunk_ms) end)` with positive extent, the first starts at
`start`, consecutive windows share exactly their boundary point, the last
ends at `end`, and the window count is `⌈(end - start) / chunk_ms⌉`. -/
theorem chunk_windows_tile (s e d : Nat) (hse : s < e) (hd : 0 < d) :
    (chunkWindows s e (chunkMsOfDays d)).length =
      ((e - s) + chunkMsOfDays d - 1) / chunkMsOfDays d ∧
    (∀ w ∈ chunkWindows s e (chunkMsOfDays d),
      w.2 = min (w.1 + chunkMsOfDays d) e ∧ w.1 < w.2) ∧
    (chunkWindows s e (chunkMsOfDays d)).head? =
      some (s, min (s + chunkMsOfDays d) e) ∧
    List.Chain' (fun a b => a.2 = b.1) (chunkWindows s e (chunkMsOfDays d)) ∧
    ∃ wl, (chunkWindows s e (chunkMsOfDays d)).getLast? = some wl ∧ wl.2 = e := by
  have hc : 0 < chunkMsOfDays d := by
    unfold chunkMsOfDays
    omega
  exact ⟨chunkWindows_length _ _ _ hc, chunkWindows_mem _ _ _,
    chunkWindows_head _ _ _ hse hc, chunkWindows_chain _ _ _,
    chunkWindows_last _ _ _ hse hc⟩

/-- Witness for `chunk_windows_tile`: 1-day chunks over a concrete
200-million-millisecond range. -/
theorem chunk_windows_tile_witness :
    (0 : Nat) < 200000000 ∧ (0 : Nat) < 1 ∧
    ((chunkWindows 0 200000000 (chunkMsOfDays 1)).length =
        ((200000000 - 0) + chunkMsOfDays 1 - 1) / chunkMsOfDays 1 ∧
      (∀ w ∈ chunkWindows 0 200000000 (chunkMsOfDays 1),
        w.2 = min (w.1 + chunkMsOfDays 1) 200000000 ∧ w.1 < w.2) ∧
      (chunkWindows 0 200000000 (chunkMsOfDays 1)).head? =
        some (0, min (0 + chunkMsOfDays 1) 200000000) ∧
      List.Chain' (fun a b => a.2 = b.1)
        (chunkWindows 0 200000000 (chunkMsOfDays 1)) ∧
      ∃ wl, (chunkWindows 0 200000000 (chunkMsOfDays 1)).getLast? = some wl ∧
        wl.2 = 200000000) :=
  ⟨by decide, by decide, chunk_windows_tile 0 200000000 1 (by decide) (by decide)⟩

/-- C8: with zero funding entries, `save_to_csv` writes exactly the fallback
header `coin, fundingRate, premium, time` and zero data rows. -/
theorem save_to_csv_empty :
    save_to_csv [] = Except.ok (["coin", "fundingRate", "premium", "time"], []) :=
  rfl

theorem writeRows_ok (fns : List String) :
    ∀ l : List Entry, (∀ e ∈ l, e.all (fun kv => fns.contains kv.1) = true) →
      writeRows fns l = Except.ok (l.map (fun e => fns.map (fun k => e.lookup k))) := by
  intro l
  induction l with
  | nil => intro _; rfl
  | cons a l ih =>
    intro h
    have ha := h a (List.mem_cons_self a l)
    have hrow : toCsvRow fns a = Except.ok (fns.map fun k => a.lookup k) := by
      unfold toCsvRow
      rw [if_pos ha]
    simp only [writeRows, hrow, ih fun e he => h e (List.mem_cons_of_mem a he),
      List.map_cons]

theorem writeRows_err (fns : List String) :
    ∀ l : List Entry, (∃ e ∈ l, e.all (fun kv => fns.contains kv.1) = false) →
      writeRows fns l = Except.error PyErr.valueError := by
  intro l
  induction l with
  | nil =>
    rintro ⟨e, he, _⟩
    exact absurd he (List.not_mem_nil e)
  | cons a l ih =>
    rintro ⟨e, he, hbad⟩
    by_cases ha : a.all (fun kv => fns.contains kv.1) = true
    · rcases List.mem_cons.mp he with rfl | he'
      · rw [ha] at hbad
        exact absurd hbad (by simp)
      · have hrow : toCsvRow fns a = Except.ok (fns.map fun k => a.lookup k) := by
          unfold toCsvRow
          rw [if_pos ha]
        simp only [writeRows, hrow, ih ⟨e, he', hbad⟩]
    · have hrow : toCsvRow fns a = Except.error PyErr.valueError := by
        unfold toCsvRow
        rw [if_neg ha]
      simp only [writeRows, hrow]

/-- C9 counterexample: with a second entry carrying a key outside the first
entry's key set, `csv.DictWriter.writerow` raises `ValueError`
(`extrasaction` defaults to `'raise'`) — the heterogeneous entry is not
handled silently. -/
theorem save_to_csv_extra_key_raises :
    save_to_csv [[("coin", JVal.jstr "HYPE")],
      [("coin", JVal.jstr "HYPE"), ("extra", JVal.jnum 1)]] =
      Except.error PyErr.valueError :=
  rfl

/-- C9 (amended): the header is derived from the first entry's key list; an
entry whose keys all lie within the header is written without error, missing
keys silently becoming empty (`restval`) cells — but an entry with any key
outside the header raises `ValueError` during serialization. -/
theorem save_to_csv_header_amended :
    (∀ (first : Entry) (rest : List Entry),
      (∀ e ∈ first :: rest,
        e.all (fun kv => (first.map Prod.fst).contains kv.1) = true) →
      save_to_csv (first :: rest) =
        Except.ok (first.map Prod.fst,
          (first :: rest).map
            (fun e => (first.map Prod.fst).map (fun k => e.lookup k)))) ∧
    (∀ (first : Entry) (rest : List Entry) (e : Entry), e ∈ first :: rest →
      e.all (fun kv => (first.map Prod.fst).contains kv.1) = false →
      save_to_csv (first :: rest) = Except.error PyErr.valueError) := by
  constructor
  · intro first rest h
    have hw := writeRows_ok (first.map Prod.fst) (first :: rest) h
    simp only [save_to_csv, hw]
  · intro first rest e he hbad
    have hw := writeRows_err (first.map Prod.fst) (first :: rest) ⟨e, he, hbad⟩
    simp only [save_to_csv, hw]

/-- Witness for `save_to_csv_header_amended`: a two-entry export where the
second entry misses the `time` key (written as an empty cell), and a
two-entry export where the second entry has an extra key (raises). -/
theorem save_to_csv_header_amended_witness :
    save_to_csv [[("coin", JVal.jstr "a"), ("time", JVal.jnum 1)],
        [("coin", JVal.jstr "b")]] =
      Except.ok (["coin", "time"],
        [[some (JVal.jstr "a"), some (JVal.jnum 1)],
          [some (JVal.jstr "b"), none]]) ∧
    save_to_csv [[("coin", JVal.jstr "a")],
        [("coin", JVal.jstr "a"), ("x", JVal.jnull)]] =
      Except.error PyErr.valueError :=
  ⟨save_to_csv_header_amended.1 [("coin", JVal.jstr "a"), ("time", JVal.jnum 1)]
      [[("coin", JVal.jstr "b")]] (by decide),
    save_to_csv_header_amended.2 [("coin", JVal.jstr "a")]
      [[("coin", JVal.jstr "a"), ("x", JVal.jnull)]]
      [("coin", JVal.jstr "a"), ("x", JVal.jnull)]
      (List.Mem.tail _ (List.Mem.head _)) (by decide)⟩

/-- Witness for `address_validation_amended`: the short address `"abc"` is
rejected with no network attempt by both methods. -/
theorem address_validation_amended_witness :
    invalid_user "abc" = true ∧
    get_open_orders "abc" (fun _ => AttemptResult.badJson) 3 =
      (Except.error PyErr.valueError, 0) ∧
    get_user_fills "abc" (fun _ => AttemptResult.badJson) 3 =
      (Except.error PyErr.valueError, 0) :=
  ⟨rfl,
    (address_validation_amended "abc").2.2.1 (fun _ => AttemptResult.badJson) 3 rfl,
    (address_validation_amended "abc").2.2.2 (fun _ => AttemptResult.badJson) 3 rfl⟩

theorem filter_orderedInsert_timeEq (q : Rat) (a : Entry) :
    ∀ s : List Entry,
      (List.orderedInsert entryLE a s).filter (timeEq q) =
        (if timeKey a = q then [a] else []) ++ s.filter (timeEq q) := by
  intro s
  induction s with
  | nil =>
    by_cases ha : timeKey a = q <;>
      simp [List.orderedInsert, List.filter_cons, timeEq, ha]
  | cons b t ih =>
    by_cases hab : entryLE a b
    · rw [List.orderedInsert, if_pos hab]
      by_cases ha : timeKey a = q <;>
        simp [List.filter_cons, timeEq, ha]
    · rw [List.orderedInsert, if_neg hab]
      have hlt : timeKey b < timeKey a := lt_of_not_le hab
      by_cases hb : timeKey b = q
      · have ha : ¬ timeKey a = q := fun hq => absurd (hq.trans hb.symm) (ne_of_gt hlt)
        simp [List.filter_cons, timeEq, hb, ha, ih]
      · simp [List.filter_cons, timeEq, hb, ih]

theorem filter_sortEntries (q : Rat) :
    ∀ l : List Entry, (sortEntries l).filter (timeEq q) = l.filter (timeEq q) := by
  intro l
  induction l with
  | nil => rfl
  | cons a t ih =>
    rw [sortEntries, List.insertionSort, filter_orderedInsert_timeEq]
    rw [show (List.insertionSort entryLE t).filter (timeEq q) = t.filter (timeEq q) from ih]
    by_cases ha : timeKey a = q <;> simp [List.filter_cons, timeEq, ha]

/-- C6: on entries whose `time` fields are numeric or absent, the exporter's
sort is a permutation of the input, ascending in the time key, and stable:
for every time value the equal-time entries appear exactly as in the input;
in particular times `[500, 100, 100, 300]` sort to `[100, 100, 300, 500]`
with the two 100-entries in arrival order. -/
theorem funding_sort_stable :
    (∀ l : List Entry, l.all timeOk = true →
      ((sortEntries l).Perm l ∧
        List.Pairwise entryLE (sortEntries l) ∧
        ∀ q : Rat, (sortEntries l).filter (timeEq q) = l.filter (timeEq q))) ∧
    sortEntries
      [[("time", JVal.jnum 500), ("id", JVal.jstr "a")],
        [("time", JVal.jnum 100), ("id", JVal.jstr "b")],
        [("time", JVal.jnum 100), ("id", JVal.jstr "c")],
        [("time", JVal.jnum 300), ("id", JVal.jstr "d")]] =
      [[("time", JVal.jnum 100), ("id", JVal.jstr "b")],
        [("time", JVal.jnum 100), ("id", JVal.jstr "c")],
        [("time", JVal.jnum 300), ("id", JVal.jstr "d")],
        [("time", JVal.jnum 500), ("id", JVal.jstr "a")]] := by
  constructor
  · intro l _
    exact ⟨List.perm_insertionSort entryLE l, List.sorted_insertionSort entryLE l,
      fun q => filter_sortEntries q l⟩
  · rfl

/-- Witness for `funding_sort_stable`: a concrete two-entry list with numeric
times. -/
theorem funding_sort_stable_witness :
    ([[("time", JVal.jnum 2)], [("time", JVal.jnum 1)]] : List Entry).all timeOk = true ∧
    ((sortEntries [[("time", JVal.jnum 2)], [("time", JVal.jnum 1)]]).Perm
        [[("time", JVal.jnum 2)], [("time", JVal.jnum 1)]] ∧
      List.Pairwise entryLE
        (sortEntries [[("time", JVal.jnum 2)], [("time", JVal.jnum 1)]]) ∧
      ∀ q : Rat,
        (sortEntries [[("time", JVal.jnum 2)], [("time", JVal.jnum 1)]]).filter (timeEq q) =
          ([[("time", JVal.jnum 2)], [("time", JVal.jnum 1)]] : List Entry).filter (timeEq q)) :=
  ⟨rfl, funding_sort_stable.1 [[("time", JVal.jnum 2)], [("time", JVal.jnum 1)]] rfl⟩
